import Mathlib

/-!
# Fixed-window rate limiter: strategy, limiter and middleware

A shallow embedding of

* `internal/pkg/ratelimiter/strategies/limiter_strategy.go` (data model),
* `internal/pkg/ratelimiter/strategies/redis_limiter_strategy.go`
  (`RedisRateLimiter.Check`),
* `internal/pkg/ratelimiter/limiter.go` (`HTTPRateLimiter.Check`),
* `internal/infra/web/middlewares/ratelimiter.go`
  (`RateLimiterMiddleware.Handle`).

Stateful code is written in state-passing style over an arbitrary state type
`σ`: a call takes the state before and returns its result with the state after.
Logging calls have no effect on results and are left out. Go `int64` values are
integers; the one subtraction of the strategy is reduced with `wrap64`.
Instants and durations are integers counted in nanoseconds.
-/

namespace RateLimiter

/-! ## Machine integers -/

/-- Least `int64`. -/
def minInt64 : Int := -9223372036854775808

/-- Greatest `int64`. -/
def maxInt64 : Int := 9223372036854775807

/-- Membership of the `int64` range. -/
def inInt64 (x : Int) : Prop := minInt64 ≤ x ∧ x ≤ maxInt64

instance (x : Int) : Decidable (inInt64 x) := by
  unfold inInt64; exact inferInstance

/-- Two's-complement reduction of an integer to the `int64` range, the value
Go keeps after an `int64` operation. -/
def wrap64 (x : Int) : Int := (x + 9223372036854775808) % 18446744073709551616 - 9223372036854775808

/-! ## Data model (`limiter_strategy.go`) -/

/-- Outcome of a rate limit check (`Allow = 1`, `Deny = -1` in the source). -/
inductive RateLimitResult where
  | Allow
  | Deny
  deriving DecidableEq, Repr

/-- Parameters of one rate limit check. -/
structure RateLimitRequest where
  Key : String
  Limit : Int
  Duration : Int
  deriving DecidableEq, Repr

/-- Result of one rate limit check. -/
structure RateLimitResponse where
  Result : RateLimitResult
  Limit : Int
  Total : Int
  Remaining : Int
  ExpiresAt : Int
  deriving DecidableEq, Repr

/-- Errors seen by the strategy: the client's `redis.Nil` sentinel, or any
other failure (carrying its text). -/
inductive Error where
  | redisNil
  | other (msg : String)
  deriving DecidableEq, Repr

/-! ## The store client as the strategy uses it -/

/-- TTL reply for a key that exists and has no expiry. -/
def keyWithoutTTL : Int := -1

/-- TTL reply for a key that does not exist. -/
def keyNotFound : Int := -2

/-- What the strategy reads back from the two-command pipeline:
the error returned by `pipe.Exec`, the result of `getCmd.Int64()` and the
result of `ttlCmd.Result()`. -/
structure PipeReply where
  execErr : Option Error
  count : Except Error Int
  ttl : Except Error Int

/-- The count the strategy works with after reading the reply: the value read,
or zero when the read reported `redis.Nil` (lines 67-75). -/
def countRead (reply : PipeReply) : Int :=
  match reply.count with
  | Except.ok c => c
  | Except.error _ => 0

/-- The three store interactions of `RedisRateLimiter.Check`, over a store
state `σ`: the pipeline `Get` + `TTL` sent by `Exec`, `Expire` (its `.Err()`),
and `Incr` (its `.Result()`). -/
structure RedisClient (σ : Type) where
  pipeGetTTL : String → σ → PipeReply × σ
  Expire : String → Int → σ → Option Error × σ
  Incr : String → σ → Except Error Int × σ

/-- The strategy: a store client and an injected clock. -/
structure RedisRateLimiter (σ : Type) where
  client : RedisClient σ
  clock : σ → Int

/-- Lines 77-113 of `redis_limiter_strategy.go`: compute `expiresAt`, take the
fast path when the count read is at or over the limit, otherwise increment and
compare the new count with the limit. -/
def RedisRateLimiter.checkLimit {σ : Type} (rl : RedisRateLimiter σ) (req : RateLimitRequest)
    (currentCount ttlDuration : Int) (s : σ) : Except Error RateLimitResponse × σ :=
  let expiresAt := rl.clock s + ttlDuration
  if currentCount ≥ req.Limit then
    (Except.ok { Result := RateLimitResult.Deny, Total := currentCount, Limit := req.Limit,
                 Remaining := 0, ExpiresAt := expiresAt }, s)
  else
    match rl.client.Incr req.Key s with
    | (Except.error err, s1) => (Except.error err, s1)
    | (Except.ok nextCount, s1) =>
      if nextCount > req.Limit then
        (Except.ok { Result := RateLimitResult.Deny, Total := nextCount, Limit := req.Limit,
                     Remaining := 0, ExpiresAt := expiresAt }, s1)
      else
        (Except.ok { Result := RateLimitResult.Allow, Total := nextCount, Limit := req.Limit,
                     Remaining := wrap64 (req.Limit - nextCount), ExpiresAt := expiresAt }, s1)

/-- Lines 67-75: read the count out of the pipeline reply; a failure other
than `redis.Nil` is returned, `redis.Nil` counts as zero. -/
def RedisRateLimiter.checkCount {σ : Type} (rl : RedisRateLimiter σ) (req : RateLimitRequest)
    (reply : PipeReply) (ttlDuration : Int) (s : σ) : Except Error RateLimitResponse × σ :=
  match reply.count with
  | Except.error (Error.other msg) => (Except.error (Error.other msg), s)
  | Except.error Error.redisNil => rl.checkLimit req 0 ttlDuration s
  | Except.ok currentCount => rl.checkLimit req currentCount ttlDuration s

/-- Lines 56-65: keep the TTL read when it came without error and is neither
sentinel; otherwise set the expiry to the request's duration. -/
def RedisRateLimiter.checkTTL {σ : Type} (rl : RedisRateLimiter σ) (req : RateLimitRequest)
    (reply : PipeReply) (s : σ) : Except Error RateLimitResponse × σ :=
  match reply.ttl with
  | Except.ok ttl =>
    if ttl ≠ keyWithoutTTL ∧ ttl ≠ keyNotFound then
      rl.checkCount req reply ttl s
    else
      match rl.client.Expire req.Key req.Duration s with
      | (some err, s1) => (Except.error err, s1)
      | (none, s1) => rl.checkCount req reply req.Duration s1
  | Except.error _ =>
    match rl.client.Expire req.Key req.Duration s with
    | (some err, s1) => (Except.error err, s1)
    | (none, s1) => rl.checkCount req reply req.Duration s1

/-- `RedisRateLimiter.Check` (lines 47-114): run the pipeline, return its
error unless it is nil or `redis.Nil`, then continue with the TTL, the count
and the limit. -/
def RedisRateLimiter.Check {σ : Type} (rl : RedisRateLimiter σ) (req : RateLimitRequest)
    (s : σ) : Except Error RateLimitResponse × σ :=
  match rl.client.pipeGetTTL req.Key s with
  | (reply, s1) =>
    match reply.execErr with
    | some (Error.other msg) => (Except.error (Error.other msg), s1)
    | some Error.redisNil => rl.checkTTL req reply s1
    | none => rl.checkTTL req reply s1

/-! ## A store scripted with fixed replies

Used to exercise `Check` under arbitrary store behaviour, failures included:
every interaction is logged and answered with the scripted reply. -/

/-- Commands sent to the store. -/
inductive Cmd where
  | get (key : String)
  | ttl (key : String)
  | expire (key : String) (d : Int)
  | incr (key : String)
  deriving DecidableEq, Repr

/-- Replies of a scripted store. -/
structure Script where
  reply : PipeReply
  expireErr : Option Error
  incr : Except Error Int

/-- Client that logs each command and answers from the script. -/
def scriptedClient (sc : Script) : RedisClient (List Cmd) where
  pipeGetTTL := fun key log => (sc.reply, log ++ [Cmd.get key, Cmd.ttl key])
  Expire := fun key d log => (sc.expireErr, log ++ [Cmd.expire key d])
  Incr := fun key log => (sc.incr, log ++ [Cmd.incr key])

/-- Strategy over a scripted store with the clock fixed at `now`. -/
def scriptedLimiter (sc : Script) (now : Int) : RedisRateLimiter (List Cmd) where
  client := scriptedClient sc
  clock := fun _ => now

/-! ## A Redis store

Keys hold integer strings with an optional absolute expiry, which the server
keeps in milliseconds of its clock. The commands follow the Redis command
reference and the client calls the code makes:

* `GET` and `TTL` do not change the store; `TTL` answers `-2` for a missing
  key, `-1` for a key without expiry, and otherwise the remaining time in
  whole seconds (the remaining milliseconds rounded to the nearest second),
  which the client turns into a duration;
* the client's `Expire` sends `EXPIRE` with whole seconds (`formatSec`);
  `EXPIRE` does nothing to a missing key, removes an existing key when the
  seconds are not positive, and otherwise sets its expiry;
* `INCR` creates a missing key at `1` without expiry and keeps the expiry of
  an existing key.

The store's clock and the strategy's clock are one clock, read in
nanoseconds by the strategy and in milliseconds by the server. -/

/-- One stored key: its integer value and its absolute expiry in
milliseconds, if any. -/
structure Entry where
  value : Int
  expireAt : Option Int
  deriving DecidableEq, Repr

/-- Store state: the clock (nanoseconds), the keys, and the commands received
so far. -/
structure Redis where
  now : Int
  data : String → Option Entry
  log : List Cmd

/-- The server's clock in milliseconds. -/
def Redis.mstime (w : Redis) : Int := w.now / 1000000

/-- An entry is expired once the server's millisecond clock is past its
expiry. -/
def Entry.live (ms : Int) (e : Entry) : Bool :=
  match e.expireAt with
  | none => true
  | some t => decide (ms ≤ t)

/-- The entry of a key as the commands see it: expired keys are gone. -/
def Redis.lookup (w : Redis) (key : String) : Option Entry :=
  match w.data key with
  | some e => if e.live w.mstime then some e else none
  | none => none

/-- Store with one key rewritten. -/
def Redis.put (w : Redis) (key : String) (e : Entry) : Redis :=
  { w with data := fun k => if k = key then some e else w.data k }

/-- Store with one key removed. -/
def Redis.del (w : Redis) (key : String) : Redis :=
  { w with data := fun k => if k = key then none else w.data k }

/-- Store with one more logged command. -/
def Redis.record (w : Redis) (c : Cmd) : Redis :=
  { w with log := w.log ++ [c] }

/-- Store at a later (or any) clock reading. -/
def Redis.atTime (w : Redis) (t : Int) : Redis :=
  { w with now := t }

/-- `GET key` read through `Int64()`: `redis.Nil` for a missing key, a parse
failure for a value outside `int64`. -/
def Redis.getInt64 (w : Redis) (key : String) : Except Error Int :=
  match w.lookup key with
  | none => Except.error Error.redisNil
  | some e =>
    if inInt64 e.value then Except.ok e.value
    else Except.error (Error.other "strconv.ParseInt: value out of range")

/-- `TTL key` as `ttlCmd.Result()` returns it: the sentinels `-2` and `-1`
unchanged, otherwise the server's reply in whole seconds, which is the
remaining milliseconds plus 500 divided by 1000, as a duration in
nanoseconds. -/
def Redis.ttlOf (w : Redis) (key : String) : Int :=
  match w.lookup key with
  | none => keyNotFound
  | some e =>
    match e.expireAt with
    | none => keyWithoutTTL
    | some t => (t - w.mstime + 500) / 1000 * 1000000000

/-- The pipeline `GET key; TTL key`: `Exec` returns the error of the first
failed command, which here can only be the `redis.Nil` of `GET`. -/
def Redis.pipeGetTTL (key : String) (w : Redis) : PipeReply × Redis :=
  ({ execErr := match w.lookup key with
                | none => some Error.redisNil
                | some _ => none,
     count := w.getInt64 key,
     ttl := Except.ok (w.ttlOf key) },
   (w.record (Cmd.get key)).record (Cmd.ttl key))

/-- Seconds the client sends for a duration (`formatSec`): 1 for a positive
duration under one second, otherwise the duration divided by one second,
truncated. -/
def formatSec (d : Int) : Int :=
  if 0 < d ∧ d < 1000000000 then 1 else Int.tdiv d 1000000000

/-- `Expire(key, d)`, sent as `EXPIRE key (formatSec d)`: nothing happens to a
missing key; an existing key is removed when the seconds are not positive, and
otherwise gets the expiry of that many seconds from the server's clock. -/
def Redis.expire (key : String) (d : Int) (w : Redis) : Option Error × Redis :=
  match w.lookup key with
  | none => (none, w.record (Cmd.expire key d))
  | some e =>
    if formatSec d ≤ 0 then
      (none, (w.del key).record (Cmd.expire key d))
    else
      (none, (w.put key { e with expireAt := some (w.mstime + formatSec d * 1000) }).record
        (Cmd.expire key d))

/-- `INCR key`: a missing key becomes `1` without expiry; an existing value is
increased in place, and the command fails when the result would leave
`int64`. -/
def Redis.incr (key : String) (w : Redis) : Except Error Int × Redis :=
  match w.lookup key with
  | none => (Except.ok 1, (w.put key { value := 1, expireAt := none }).record (Cmd.incr key))
  | some e =>
    if minInt64 ≤ e.value ∧ e.value < maxInt64 then
      (Except.ok (e.value + 1),
       (w.put key { e with value := e.value + 1 }).record (Cmd.incr key))
    else
      (Except.error (Error.other "ERR value is not an integer or out of range"),
       w.record (Cmd.incr key))

/-- The Redis store as a client. -/
def redisClient : RedisClient Redis where
  pipeGetTTL := Redis.pipeGetTTL
  Expire := Redis.expire
  Incr := Redis.incr

/-- The strategy wired to the Redis store, reading the store's clock. -/
def redisLimiter : RedisRateLimiter Redis where
  client := redisClient
  clock := fun w => w.now

/-- One check on the Redis store at clock reading `t`. -/
def checkAt (req : RateLimitRequest) (t : Int) (w : Redis) : Except Error RateLimitResponse × Redis :=
  redisLimiter.Check req (w.atTime t)

/-- Checks run one after another at the given clock readings; the responses
come back in order with the final store. -/
def runChecks (req : RateLimitRequest) : List Int → Redis → List (Except Error RateLimitResponse) × Redis
  | [], w => ([], w)
  | t :: ts, w =>
    let r := checkAt req t w
    let rest := runChecks req ts r.2
    (r.1 :: rest.1, rest.2)

/-- Store with no keys. -/
def Redis.empty (now : Int) : Redis where
  now := now
  data := fun _ => none
  log := []

/-! ## HTTP values -/

/-- Header fields: names with their values. Names are taken in the canonical
form under which `net/http` stores and looks them up. -/
structure Header where
  fields : List (String × List String)
  deriving DecidableEq, Repr

/-- `Header.Get`: the first value stored under the name, or the empty string. -/
def Header.Get (h : Header) (key : String) : String :=
  match h.fields.lookup key with
  | some (v :: _) => v
  | _ => ""

/-- `Header.Set`: whatever is stored under the name is replaced by the single
value. -/
def Header.Set (h : Header) (key value : String) : Header :=
  { fields := (key, [value]) :: h.fields.filter (fun p => p.1 != key) }

/-- The parts of `*http.Request` the limiter reads: the header, and the peer
address the client-address resolver may fall back to. -/
structure Request where
  Header : Header
  RemoteAddr : String
  deriving DecidableEq, Repr

/-- The parts of `http.ResponseWriter` written here: header, status code (none
until one is written) and body. -/
structure ResponseWriter where
  Header : Header
  status : Option Nat
  body : String
  deriving DecidableEq, Repr

/-- `strconv.FormatInt(x, 10)`. -/
def FormatInt (x : Int) : String := toString x

/-- `Time.Unix()`: whole seconds of an instant counted in nanoseconds. -/
def Unix (t : Int) : Int := Int.fdiv t 1000000000

/-- `Error()` text of an error value. -/
def Error.text : Error → String
  | Error.redisNil => "redis: nil"
  | Error.other msg => msg

/-! ## Request classifier (`limiter.go`) -/

/-- Default header name for API key authentication. -/
def DefaultHeaderAPIKey : String := "API_KEY"

/-- `HTTPRateLimiter` without its logger and strategy, which `Check` takes as
arguments here. -/
structure HTTPRateLimiter where
  maxRequestsPerIP : Int
  maxRequestsPerToken : Int
  timeWindow : Int
  deriving DecidableEq, Repr

/-- `NewHTTPRateLimiter`: the window given in milliseconds becomes a duration
in nanoseconds (an `int64` product). -/
def NewHTTPRateLimiter (ipMaxReqs tokenMaxReqs timeWindowMillis : Int) : HTTPRateLimiter where
  maxRequestsPerIP := ipMaxReqs
  maxRequestsPerToken := tokenMaxReqs
  timeWindow := wrap64 (timeWindowMillis * 1000000)

/-- `HTTPRateLimiter.Check` (lines 53-90). `GetClientIP` stands for the
resolver `rip.GetClientIP` of the imported request-ip package; `strategy` is
the `Check` of the configured strategy. -/
def HTTPRateLimiter.Check {σ : Type} (rl : HTTPRateLimiter) (GetClientIP : Request → String)
    (strategy : RateLimitRequest → σ → Except Error RateLimitResponse × σ)
    (r : Request) (s : σ) : Except Error RateLimitResponse × σ :=
  let apiKey := r.Header.Get DefaultHeaderAPIKey
  let key := if apiKey ≠ "" then apiKey else GetClientIP r
  let limit := if apiKey ≠ "" then rl.maxRequestsPerToken else rl.maxRequestsPerIP
  let req : RateLimitRequest := { Key := key, Limit := limit, Duration := rl.timeWindow }
  match strategy req s with
  | (Except.error err, s1) => (Except.error err, s1)
  | (Except.ok result, s1) => (Except.ok result, s1)

/-- Strategy stand-in that records every request it is given and answers with
`outcome`. -/
def recordingStrategy (outcome : RateLimitRequest → Except Error RateLimitResponse) :
    RateLimitRequest → List RateLimitRequest →
      Except Error RateLimitResponse × List RateLimitRequest :=
  fun req seen => (outcome req, seen ++ [req])

/-! ## Admission middleware (`middlewares/ratelimiter.go`) -/

/-- Name of the quota header carrying the limit. -/
def headerRateLimitLimit : String := "X-RateLimit-Limit"

/-- Name of the quota header carrying the remaining count. -/
def headerRateLimitRemaining : String := "X-RateLimit-Remaining"

/-- Name of the quota header carrying the window reset time. -/
def headerRateLimitReset : String := "X-RateLimit-Reset"

/-- `http.StatusInternalServerError`. -/
def StatusInternalServerError : Nat := 500

/-- `http.StatusTooManyRequests`. -/
def StatusTooManyRequests : Nat := 429

/-- `ErrRateLimitExceeded` of the strategies package. -/
def ErrRateLimitExceeded : Error := Error.other "rate limit exceeded"

/-- `errors.Join(errors.New("failed to check rate limit"), err)`: one error
whose text is the two texts on separate lines. -/
def joinCheckFailure (err : Error) : Error :=
  Error.other ("failed to check rate limit\n" ++ err.text)

/-- Modelled from the spec: `responsehandler.RespondWithError` is missing from
the sources at hand. Following sections 4.4 and 6 it produces the error
response: the given status code and an error payload carrying the error's
text. The header of the writer is left as the caller prepared it. -/
def RespondWithError (w : ResponseWriter) (statusCode : Nat) (err : Error) : ResponseWriter :=
  { w with status := some statusCode, body := err.text }

/-- The handler returned by `RateLimiterMiddleware.Handle(next)` (lines
49-82), for a limiter and a downstream handler acting on a state `σ`. -/
def RateLimiterMiddleware.Handle {σ : Type}
    (limiter : Request → σ → Except Error RateLimitResponse × σ)
    (next : ResponseWriter → Request → σ → ResponseWriter × σ)
    (w : ResponseWriter) (r : Request) (s : σ) : ResponseWriter × σ :=
  match limiter r s with
  | (Except.error err, s1) =>
    (RespondWithError w StatusInternalServerError (joinCheckFailure err), s1)
  | (Except.ok result, s1) =>
    let w1 := { w with Header := w.Header.Set headerRateLimitLimit (FormatInt result.Limit) }
    let w2 := { w1 with
      Header := w1.Header.Set headerRateLimitRemaining (FormatInt result.Remaining) }
    let w3 := { w2 with
      Header := w2.Header.Set headerRateLimitReset (FormatInt (Unix result.ExpiresAt)) }
    if result.Result = RateLimitResult.Deny then
      (RespondWithError w3 StatusTooManyRequests ErrRateLimitExceeded, s1)
    else
      next w3 r s1

/-- Numbers of calls made to the limiter and to the downstream handler. -/
structure Calls where
  limiter : Nat
  next : Nat
  deriving DecidableEq, Repr

/-- Limiter stand-in answering with `outcome` and counting its calls. -/
def countingLimiter (outcome : Request → Except Error RateLimitResponse) :
    Request → Calls → Except Error RateLimitResponse × Calls :=
  fun r c => (outcome r, { c with limiter := c.limiter + 1 })

/-- Downstream handler stand-in acting as `handler` on the writer and counting
its calls. -/
def countingNext (handler : ResponseWriter → Request → ResponseWriter) :
    ResponseWriter → Request → Calls → ResponseWriter × Calls :=
  fun w r c => (handler w r, { c with next := c.next + 1 })

/-! # Theorems -/

/-! ## Arithmetic of `wrap64` -/

theorem wrap64_of_inInt64 (x : Int) (h : inInt64 x) : wrap64 x = x := by
  unfold inInt64 minInt64 maxInt64 at h
  unfold wrap64
  omega

theorem wrap64_add_left (a b : Int) : wrap64 (wrap64 a + b) = wrap64 (a + b) := by
  unfold wrap64
  omega

/-! ## Shape of a successful check -/

/-- The three ways `checkLimit` produces a response. -/
theorem checkLimit_ok {σ : Type} (rl : RedisRateLimiter σ) (req : RateLimitRequest)
    (c d : Int) (s s' : σ) (resp : RateLimitResponse)
    (h : rl.checkLimit req c d s = (Except.ok resp, s')) :
    (req.Limit ≤ c ∧ s' = s ∧
      resp = { Result := RateLimitResult.Deny, Limit := req.Limit, Total := c,
               Remaining := 0, ExpiresAt := rl.clock s + d }) ∨
    (c < req.Limit ∧ ∃ n, rl.client.Incr req.Key s = (Except.ok n, s') ∧
      ((req.Limit < n ∧
        resp = { Result := RateLimitResult.Deny, Limit := req.Limit, Total := n,
                 Remaining := 0, ExpiresAt := rl.clock s + d }) ∨
       (n ≤ req.Limit ∧
        resp = { Result := RateLimitResult.Allow, Limit := req.Limit, Total := n,
                 Remaining := wrap64 (req.Limit - n), ExpiresAt := rl.clock s + d }))) := by
  unfold RedisRateLimiter.checkLimit at h
  by_cases hc : c ≥ req.Limit
  · simp only [hc, if_true, Prod.mk.injEq, Except.ok.injEq] at h
    exact Or.inl ⟨hc, h.2.symm, h.1.symm⟩
  · simp only [hc, if_false] at h
    refine Or.inr ⟨by omega, ?_⟩
    rcases hi : rl.client.Incr req.Key s with ⟨r, s1⟩
    rw [hi] at h
    cases r with
    | error e => simp at h
    | ok n =>
      by_cases hn : n > req.Limit
      · simp only [hn, if_true, Prod.mk.injEq, Except.ok.injEq] at h
        exact ⟨n, by rw [h.2], Or.inl ⟨hn, h.1.symm⟩⟩
      · simp only [hn, if_false, Prod.mk.injEq, Except.ok.injEq] at h
        exact ⟨n, by rw [h.2], Or.inr ⟨by omega, h.1.symm⟩⟩

/-- A response of `checkCount` is a response of `checkLimit` on the count read
(zero for `redis.Nil`). -/
theorem checkCount_ok {σ : Type} (rl : RedisRateLimiter σ) (req : RateLimitRequest)
    (reply : PipeReply) (d : Int) (s s' : σ) (resp : RateLimitResponse)
    (h : rl.checkCount req reply d s = (Except.ok resp, s')) :
    ∃ c, rl.checkLimit req c d s = (Except.ok resp, s') ∧
      (reply.count = Except.ok c ∨ (reply.count = Except.error Error.redisNil ∧ c = 0)) := by
  unfold RedisRateLimiter.checkCount at h
  rcases hcnt : reply.count with e | c
  · rw [hcnt] at h
    cases e with
    | redisNil => exact ⟨0, h, Or.inr ⟨rfl, rfl⟩⟩
    | other msg => simp at h
  · rw [hcnt] at h
    exact ⟨c, h, Or.inl rfl⟩

/-- A response of `checkTTL` is a response of `checkCount`, either directly on
a valid TTL or after a successful `Expire`. -/
theorem checkTTL_ok {σ : Type} (rl : RedisRateLimiter σ) (req : RateLimitRequest)
    (reply : PipeReply) (s s' : σ) (resp : RateLimitResponse)
    (h : rl.checkTTL req reply s = (Except.ok resp, s')) :
    (∃ ttl, reply.ttl = Except.ok ttl ∧ ttl ≠ keyWithoutTTL ∧ ttl ≠ keyNotFound ∧
      rl.checkCount req reply ttl s = (Except.ok resp, s')) ∨
    (∃ s1, rl.client.Expire req.Key req.Duration s = (none, s1) ∧
      rl.checkCount req reply req.Duration s1 = (Except.ok resp, s')) := by
  unfold RedisRateLimiter.checkTTL at h
  rcases httl : reply.ttl with e | ttl
  · rw [httl] at h
    rcases hx : rl.client.Expire req.Key req.Duration s with ⟨r, s1⟩
    rw [hx] at h
    cases r with
    | some err => simp at h
    | none => exact Or.inr ⟨s1, rfl, h⟩
  · rw [httl] at h
    by_cases hv : ttl ≠ keyWithoutTTL ∧ ttl ≠ keyNotFound
    · simp only [if_pos hv] at h
      exact Or.inl ⟨ttl, rfl, hv.1, hv.2, h⟩
    · simp only [if_neg hv] at h
      rcases hx : rl.client.Expire req.Key req.Duration s with ⟨r, s1⟩
      rw [hx] at h
      cases r with
      | some err => simp at h
      | none => exact Or.inr ⟨s1, rfl, h⟩

/-- A response of `Check` is a response of `checkTTL` on the pipeline reply. -/
theorem Check_ok {σ : Type} (rl : RedisRateLimiter σ) (req : RateLimitRequest)
    (s s' : σ) (resp : RateLimitResponse)
    (h : rl.Check req s = (Except.ok resp, s')) :
    rl.checkTTL req (rl.client.pipeGetTTL req.Key s).1 (rl.client.pipeGetTTL req.Key s).2
      = (Except.ok resp, s') := by
  unfold RedisRateLimiter.Check at h
  rcases hp : rl.client.pipeGetTTL req.Key s with ⟨reply, s1⟩
  rw [hp] at h
  simp only at h ⊢
  rcases he : reply.execErr with _ | e
  · rw [he] at h; exact h
  · rw [he] at h
    cases e with
    | redisNil => exact h
    | other msg => simp at h

/-- Every response of `Check` comes out of `checkLimit`, run on the count read
by the pipeline. -/
theorem Check_ok_checkLimit {σ : Type} (rl : RedisRateLimiter σ) (req : RateLimitRequest)
    (s s' : σ) (resp : RateLimitResponse)
    (h : rl.Check req s = (Except.ok resp, s')) :
    ∃ d s0, rl.checkLimit req (countRead (rl.client.pipeGetTTL req.Key s).1) d s0
      = (Except.ok resp, s') := by
  have h1 := Check_ok rl req s s' resp h
  have key : ∀ d s0, rl.checkCount req (rl.client.pipeGetTTL req.Key s).1 d s0
      = (Except.ok resp, s') →
      rl.checkLimit req (countRead (rl.client.pipeGetTTL req.Key s).1) d s0
        = (Except.ok resp, s') := by
    intro d s0 h2
    obtain ⟨c, h3, hc⟩ := checkCount_ok rl req _ _ _ s' resp h2
    rcases hc with hc | ⟨hc, h0⟩
    · simpa [countRead, hc] using h3
    · subst h0; simpa [countRead, hc] using h3
  rcases checkTTL_ok rl req _ _ s' resp h1 with ⟨ttl, _, _, _, h2⟩ | ⟨s1, _, h2⟩
  · exact ⟨_, _, key _ _ h2⟩
  · exact ⟨_, _, key _ _ h2⟩

/-! ## Response invariants of the strategy -/

/-- C1: whenever `RedisRateLimiter.Check` returns a response, the echoed limit
is the request's limit; on `Allow`, `remaining + total == limit` (as Go
evaluates it on `int64`, and as an exact integer equality whenever the total is
not negative); on `Deny`, `remaining == 0`. This holds for every store client
and every store state. -/
theorem Check_response_invariant {σ : Type} (rl : RedisRateLimiter σ) (req : RateLimitRequest)
    (s s' : σ) (resp : RateLimitResponse) (hL : inInt64 req.Limit)
    (h : rl.Check req s = (Except.ok resp, s')) :
    resp.Limit = req.Limit ∧
    (resp.Result = RateLimitResult.Allow →
      wrap64 (resp.Remaining + resp.Total) = resp.Limit ∧
      (0 ≤ resp.Total → resp.Remaining + resp.Total = resp.Limit)) ∧
    (resp.Result = RateLimitResult.Deny → resp.Remaining = 0) := by
  obtain ⟨d, s0, h1⟩ := Check_ok_checkLimit rl req s s' resp h
  rcases checkLimit_ok rl req _ d s0 s' resp h1 with
    ⟨_, _, hr⟩ | ⟨_, n, _, ⟨_, hr⟩ | ⟨hn, hr⟩⟩
  · subst hr; simp
  · subst hr; simp
  · subst hr
    refine ⟨rfl, fun _ => ⟨?_, fun h0 => ?_⟩, fun hd => by simp at hd⟩
    · show wrap64 (wrap64 (req.Limit - n) + n) = req.Limit
      rw [wrap64_add_left, sub_add_cancel, wrap64_of_inInt64 _ hL]
    · show wrap64 (req.Limit - n) + n = req.Limit
      have h0' : 0 ≤ n := h0
      rw [wrap64_of_inInt64]
      · omega
      · unfold inInt64 minInt64 maxInt64 at hL ⊢
        omega

/-- C1 instance: on a store answering count 1, TTL 500 and increment 2, the
check of limit 3 at clock 5 allows with remaining 1 and total 2. -/
theorem Check_response_invariant_witness :
    inInt64 3 ∧
    (3 : Int) = 3 ∧
    (RateLimitResult.Allow = RateLimitResult.Allow →
      wrap64 (1 + 2) = 3 ∧ ((0 : Int) ≤ 2 → (1 : Int) + 2 = 3)) ∧
    (RateLimitResult.Allow = RateLimitResult.Deny → (1 : Int) = 0) :=
  ⟨by decide,
   Check_response_invariant
    (scriptedLimiter { reply := { execErr := none, count := Except.ok 1, ttl := Except.ok 500 },
                       expireErr := none, incr := Except.ok 2 } 5)
    { Key := "k", Limit := 3, Duration := 1000 } []
    [Cmd.get "k", Cmd.ttl "k", Cmd.incr "k"]
    { Result := RateLimitResult.Allow, Limit := 3, Total := 2, Remaining := 1, ExpiresAt := 505 }
    (by decide) (by rfl)⟩

/-- C2 (as stated) fails: on a fresh Redis store with limit 2, the second
check within the window returns total 2, which is at the limit, yet the
result is `Allow`, so not every response with `total >= limit` is a `Deny`. -/
theorem Check_total_at_limit_allows :
    (checkAt { Key := "k", Limit := 2, Duration := 1000 } 10
        (checkAt { Key := "k", Limit := 2, Duration := 1000 } 0 (Redis.empty 0)).2).1
      = Except.ok { Result := RateLimitResult.Allow, Limit := 2, Total := 2,
                    Remaining := 0, ExpiresAt := 1010 } ∧
    ¬ (∀ resp : RateLimitResponse,
        (checkAt { Key := "k", Limit := 2, Duration := 1000 } 10
          (checkAt { Key := "k", Limit := 2, Duration := 1000 } 0 (Redis.empty 0)).2).1
          = Except.ok resp →
        resp.Total ≥ resp.Limit →
        resp.Result = RateLimitResult.Deny ∧ resp.Remaining = 0) := by
  have hrun : (checkAt { Key := "k", Limit := 2, Duration := 1000 } 10
        (checkAt { Key := "k", Limit := 2, Duration := 1000 } 0 (Redis.empty 0)).2).1
      = Except.ok { Result := RateLimitResult.Allow, Limit := 2, Total := 2,
                    Remaining := 0, ExpiresAt := 1010 } := by rfl
  refine ⟨hrun, fun hall => ?_⟩
  have h := (hall _ hrun (by decide)).1
  exact absurd h (by decide)

/-- C2 (amended): for every successful `RedisRateLimiter.Check`, a response
with `total >= limit` has `remaining == 0`; it is a `Deny` when `total > limit`
and when the total is the count read on the fast path (count read `>= limit`);
when the count read was below the limit and the post-increment total equals
the limit, the result is `Allow`. -/
theorem Check_total_ge_limit {σ : Type} (rl : RedisRateLimiter σ) (req : RateLimitRequest)
    (s s' : σ) (resp : RateLimitResponse)
    (h : rl.Check req s = (Except.ok resp, s')) :
    (resp.Total ≥ req.Limit → resp.Remaining = 0) ∧
    (resp.Total > req.Limit → resp.Result = RateLimitResult.Deny) ∧
    (countRead (rl.client.pipeGetTTL req.Key s).1 ≥ req.Limit →
      resp.Result = RateLimitResult.Deny ∧
      resp.Total = countRead (rl.client.pipeGetTTL req.Key s).1) ∧
    (countRead (rl.client.pipeGetTTL req.Key s).1 < req.Limit → resp.Total = req.Limit →
      resp.Result = RateLimitResult.Allow) := by
  obtain ⟨d, s0, h1⟩ := Check_ok_checkLimit rl req s s' resp h
  rcases checkLimit_ok rl req _ d s0 s' resp h1 with
    ⟨hc, _, hr⟩ | ⟨hc, n, _, ⟨hn, hr⟩ | ⟨hn, hr⟩⟩
  · subst hr
    refine ⟨fun _ => rfl, fun _ => rfl, fun _ => ⟨rfl, rfl⟩, fun hlt => ?_⟩
    omega
  · subst hr
    refine ⟨fun _ => rfl, fun _ => rfl, fun hge => ?_, fun _ ht => ?_⟩
    · omega
    · have ht' : n = req.Limit := ht
      omega
  · subst hr
    refine ⟨fun hge => ?_, fun hgt => ?_, fun hge => ?_, fun _ _ => rfl⟩
    · have hge' : n ≥ req.Limit := hge
      have hn' : n = req.Limit := by omega
      show wrap64 (req.Limit - n) = 0
      rw [hn', sub_self]
      rfl
    · have hgt' : n > req.Limit := hgt
      omega
    · omega

/-- C2 (amended) instance: count read 1, limit 2, increment answering 2. -/
theorem Check_total_ge_limit_witness :
    ((2 : Int) ≥ 2 → (0 : Int) = 0) ∧
    ((2 : Int) > 2 → RateLimitResult.Allow = RateLimitResult.Deny) ∧
    ((1 : Int) ≥ 2 → RateLimitResult.Allow = RateLimitResult.Deny ∧ (2 : Int) = 1) ∧
    ((1 : Int) < 2 → (2 : Int) = 2 → RateLimitResult.Allow = RateLimitResult.Allow) :=
  Check_total_ge_limit
    (scriptedLimiter { reply := { execErr := none, count := Except.ok 1, ttl := Except.ok 500 },
                       expireErr := none, incr := Except.ok 2 } 5)
    { Key := "k", Limit := 2, Duration := 1000 } []
    [Cmd.get "k", Cmd.ttl "k", Cmd.incr "k"]
    { Result := RateLimitResult.Allow, Limit := 2, Total := 2, Remaining := 0, ExpiresAt := 505 }
    (by rfl)

/-! ## Store failures -/

/-- C8 at its failing input: the count read reports `redis.Nil` (so `Exec`
returns `redis.Nil`, the first failed command's error), the TTL read fails with
another error, `Expire` and `Incr` succeed. `Check` returns an `Allow`
response: the TTL failure is not surfaced. -/
theorem Check_swallows_ttl_failure :
    (scriptedLimiter
        { reply := { execErr := some Error.redisNil,
                     count := Except.error Error.redisNil,
                     ttl := Except.error (Error.other "NOPERM") },
          expireErr := none, incr := Except.ok 1 } 5).Check
        { Key := "k", Limit := 2, Duration := 1000 } []
      = (Except.ok { Result := RateLimitResult.Allow, Limit := 2, Total := 1,
                     Remaining := 1, ExpiresAt := 1005 },
         [Cmd.get "k", Cmd.ttl "k", Cmd.expire "k" 1000, Cmd.incr "k"]) := by
  rfl

/-! ## The Redis store: reading through its updates -/

@[simp]
theorem Redis.record_now (w : Redis) (c : Cmd) : (w.record c).now = w.now := rfl
@[simp]
theorem Redis.record_mstime (w : Redis) (c : Cmd) : (w.record c).mstime = w.mstime := rfl
@[simp]
theorem Redis.record_data (w : Redis) (c : Cmd) : (w.record c).data = w.data := rfl
@[simp]
theorem Redis.record_log (w : Redis) (c : Cmd) : (w.record c).log = w.log ++ [c] := rfl
@[simp]
theorem Redis.put_now (w : Redis) (k : String) (e : Entry) : (w.put k e).now = w.now := rfl
@[simp]
theorem Redis.put_mstime (w : Redis) (k : String) (e : Entry) : (w.put k e).mstime = w.mstime := rfl
@[simp]
theorem Redis.put_log (w : Redis) (k : String) (e : Entry) : (w.put k e).log = w.log := rfl
@[simp]
theorem Redis.put_data_same (w : Redis) (k : String) (e : Entry) :
    (w.put k e).data k = some e := by simp [Redis.put]
theorem Redis.put_data_other (w : Redis) (k k' : String) (e : Entry) (h : k' ≠ k) :
    (w.put k e).data k' = w.data k' := by simp [Redis.put, h]
@[simp]
theorem Redis.atTime_now (w : Redis) (t : Int) : (w.atTime t).now = t := rfl
@[simp]
theorem Redis.atTime_mstime (w : Redis) (t : Int) : (w.atTime t).mstime = t / 1000000 := rfl
@[simp]
theorem Redis.atTime_data (w : Redis) (t : Int) : (w.atTime t).data = w.data := rfl
@[simp]
theorem Redis.atTime_log (w : Redis) (t : Int) : (w.atTime t).log = w.log := rfl

@[simp]
theorem Redis.lookup_record (w : Redis) (c : Cmd) (k : String) :
    (w.record c).lookup k = w.lookup k := rfl

/-- The entry of a key as seen at the store's clock, from the raw data. -/
theorem Redis.lookup_eq (w : Redis) (k : String) :
    w.lookup k = match w.data k with
      | some e => if e.live w.mstime then some e else none
      | none => none := rfl

theorem Redis.lookup_put_same (w : Redis) (k : String) (e : Entry) :
    (w.put k e).lookup k = if e.live w.mstime then some e else none := by
  simp [Redis.lookup_eq]

theorem Redis.lookup_put_other (w : Redis) (k k' : String) (e : Entry) (h : k' ≠ k) :
    (w.put k e).lookup k' = w.lookup k' := by
  simp [Redis.lookup_eq, Redis.put_data_other _ _ _ _ h]

/-- A live entry seen through `lookup` is the stored entry. -/
theorem Redis.lookup_some (w : Redis) (k : String) (e : Entry) (h : w.lookup k = some e) :
    w.data k = some e ∧ e.live w.mstime = true := by
  rw [Redis.lookup_eq] at h
  cases hd : w.data k with
  | none => rw [hd] at h; simp at h
  | some e' =>
    rw [hd] at h
    by_cases hl : e'.live w.mstime = true
    · simp only [hl, if_true, Option.some.injEq] at h
      subst h; exact ⟨rfl, hl⟩
    · simp [hl] at h

/-- A count read as `v` comes from a live entry holding `v`, within `int64`. -/
theorem Redis.getInt64_ok (w : Redis) (k : String) (v : Int)
    (h : w.getInt64 k = Except.ok v) :
    inInt64 v ∧ ∃ exp, w.lookup k = some { value := v, expireAt := exp } := by
  unfold Redis.getInt64 at h
  cases hlk : w.lookup k with
  | none => rw [hlk] at h; simp at h
  | some e =>
    rw [hlk] at h
    by_cases hv : inInt64 e.value
    · simp only [hv, if_true, Except.ok.injEq] at h
      subst h
      exact ⟨hv, e.expireAt, rfl⟩
    · simp [hv] at h

/-- A positive duration is sent as at least one second. -/
theorem formatSec_pos (d : Int) (h : 0 < d) : 1 ≤ formatSec d := by
  unfold formatSec
  by_cases hs : 0 < d ∧ d < 1000000000
  · rw [if_pos hs]
  · rw [if_neg hs, Int.tdiv_eq_ediv (by omega) (by omega)]
    omega

/-! ## One check on the Redis store, case by case -/

/-- Check on a key the store does not hold (or holds expired): with a limit of
at least one the request is allowed with total 1, and the key is created with
value 1 and no expiry; nothing else changes. -/
theorem checkAt_absent (req : RateLimitRequest) (t : Int) (w : Redis)
    (hL : 1 ≤ req.Limit) (habs : (w.atTime t).lookup req.Key = none) :
    checkAt req t w =
      (Except.ok { Result := RateLimitResult.Allow, Limit := req.Limit, Total := 1,
                   Remaining := wrap64 (req.Limit - 1), ExpiresAt := t + req.Duration },
       (((((w.atTime t).record (Cmd.get req.Key)).record (Cmd.ttl req.Key)).record
            (Cmd.expire req.Key req.Duration)).put req.Key { value := 1, expireAt := none }).record
          (Cmd.incr req.Key)) := by
  have h0 : ¬ (0 ≥ req.Limit) := by omega
  have h1 : ¬ (1 > req.Limit) := by omega
  simp [checkAt, RedisRateLimiter.Check, redisLimiter, redisClient, Redis.pipeGetTTL,
    Redis.getInt64, Redis.ttlOf, habs, RedisRateLimiter.checkTTL, keyNotFound, keyWithoutTTL,
    Redis.expire, RedisRateLimiter.checkCount, RedisRateLimiter.checkLimit, Redis.incr, h0, h1]

/-- Check on a live key with expiry `E` (milliseconds) whose count is at or
over the limit: fast-path `Deny`; only the two reads reach the store. -/
theorem checkAt_ttl_saturated (req : RateLimitRequest) (t : Int) (w : Redis) (v E : Int)
    (hv : inInt64 v) (hlk : (w.atTime t).lookup req.Key = some { value := v, expireAt := some E })
    (hsat : req.Limit ≤ v) :
    checkAt req t w =
      (Except.ok { Result := RateLimitResult.Deny, Limit := req.Limit, Total := v,
                   Remaining := 0,
                   ExpiresAt := t + (E - t / 1000000 + 500) / 1000 * 1000000000 },
       ((w.atTime t).record (Cmd.get req.Key)).record (Cmd.ttl req.Key)) := by
  have hlive := (Redis.lookup_some _ _ _ hlk).2
  simp only [Entry.live, Redis.atTime_mstime, decide_eq_true_eq] at hlive
  have h1 : ¬ ((E - t / 1000000 + 500) / 1000 * 1000000000 = -1) := by omega
  have h2 : ¬ ((E - t / 1000000 + 500) / 1000 * 1000000000 = -2) := by omega
  have h3 : v ≥ req.Limit := hsat
  simp [checkAt, RedisRateLimiter.Check, redisLimiter, redisClient, Redis.pipeGetTTL,
    Redis.getInt64, Redis.ttlOf, hlk, RedisRateLimiter.checkTTL, keyNotFound, keyWithoutTTL,
    RedisRateLimiter.checkCount, RedisRateLimiter.checkLimit, hv, h1, h2, h3]

/-- Check on a live key without expiry whose count is at or over the limit,
with a positive duration: `Expire` gives the key an expiry `formatSec
duration` seconds ahead, then fast-path `Deny`. -/
theorem checkAt_persistent_saturated (req : RateLimitRequest) (t : Int) (w : Redis) (v : Int)
    (hpos : 0 < req.Duration)
    (hv : inInt64 v) (hlk : (w.atTime t).lookup req.Key = some { value := v, expireAt := none })
    (hsat : req.Limit ≤ v) :
    checkAt req t w =
      (Except.ok { Result := RateLimitResult.Deny, Limit := req.Limit, Total := v,
                   Remaining := 0, ExpiresAt := t + req.Duration },
       ((((w.atTime t).record (Cmd.get req.Key)).record (Cmd.ttl req.Key)).put req.Key
            { value := v, expireAt := some (t / 1000000 + formatSec req.Duration * 1000) }).record
          (Cmd.expire req.Key req.Duration)) := by
  have h3 : v ≥ req.Limit := hsat
  have h4 : ¬ (formatSec req.Duration ≤ 0) := by
    have := formatSec_pos _ hpos; omega
  simp [checkAt, RedisRateLimiter.Check, redisLimiter, redisClient, Redis.pipeGetTTL,
    Redis.getInt64, Redis.ttlOf, hlk, RedisRateLimiter.checkTTL, keyNotFound, keyWithoutTTL,
    Redis.expire, RedisRateLimiter.checkCount, RedisRateLimiter.checkLimit, hv, h3, h4]

/-! ## A run of checks within one window -/

/-- C3 at its failing input: limit 2, window 1500 ms, checks on an empty store
at 0, 1 ms and 1.2 s, all inside the window opened by the first check. The
second check sets the expiry with `Expire`, which is sent in whole seconds
(`EXPIRE k 1`), so the key is gone at 1.001 s and the third check, which the
claim says is a `Deny` with total 2, is an `Allow` with total 1. -/
theorem runChecks_window_cut_short :
    (∀ t ∈ [(0 : Int), 1000000, 1200000000], 0 ≤ t ∧ t < 0 + 1500000000) ∧
    (runChecks { Key := "k", Limit := 2, Duration := 1500000000 }
        [0, 1000000, 1200000000] (Redis.empty 0)).1
      = [Except.ok { Result := RateLimitResult.Allow, Limit := 2, Total := 1,
                     Remaining := 1, ExpiresAt := 1500000000 },
         Except.ok { Result := RateLimitResult.Allow, Limit := 2, Total := 2,
                     Remaining := 0, ExpiresAt := 1501000000 },
         Except.ok { Result := RateLimitResult.Allow, Limit := 2, Total := 1,
                     Remaining := 1, ExpiresAt := 2700000000 }] ∧
    (runChecks { Key := "k", Limit := 2, Duration := 1500000000 }
        [0, 1000000] (Redis.empty 0)).2.data "k"
      = some { value := 2, expireAt := some 1001 } := by
  refine ⟨by decide, by rfl, by rfl⟩

/-! ## Fast path -/

/-- On the fast path `checkLimit` answers `Deny` and leaves the state as it
is. -/
theorem checkLimit_saturated {σ : Type} (rl : RedisRateLimiter σ) (req : RateLimitRequest)
    (c d : Int) (s : σ) (hsat : req.Limit ≤ c) :
    rl.checkLimit req c d s =
      (Except.ok { Result := RateLimitResult.Deny, Limit := req.Limit, Total := c,
                   Remaining := 0, ExpiresAt := rl.clock s + d }, s) := by
  have h : c ≥ req.Limit := hsat
  simp [RedisRateLimiter.checkLimit, h]

/-- With a count read at or over the limit, `checkCount` is the fast-path
`Deny`. -/
theorem checkCount_saturated {σ : Type} (rl : RedisRateLimiter σ) (req : RateLimitRequest)
    (reply : PipeReply) (v d : Int) (s : σ)
    (hread : reply.count = Except.ok v) (hsat : req.Limit ≤ v) :
    rl.checkCount req reply d s =
      (Except.ok { Result := RateLimitResult.Deny, Limit := req.Limit, Total := v,
                   Remaining := 0, ExpiresAt := rl.clock s + d }, s) := by
  unfold RedisRateLimiter.checkCount
  rw [hread]
  exact checkLimit_saturated rl req v d s hsat

/-- C4 (as stated) fails on two inputs whose count read (5) is over the limit
(2). On a store that reports no TTL for the key and whose `EXPIRE` fails, the
check returns that error and no `Deny`. On the Redis store, for a key without
expiry and a request of duration 0, the check answers `Deny` but `EXPIRE` has
removed the key, so its stored counter value is not left unchanged. -/
theorem fast_path_not_for_every_request :
    ((scriptedLimiter
        { reply := { execErr := none, count := Except.ok 5, ttl := Except.ok (-1) },
          expireErr := some (Error.other "READONLY"), incr := Except.ok 6 } 7).Check
        { Key := "k", Limit := 2, Duration := 1000000000 } []).1
      = Except.error (Error.other "READONLY") ∧
    (redisClient.pipeGetTTL "k"
        (((Redis.empty 0).put "k" { value := 5, expireAt := none }).atTime 7)).1.count
      = Except.ok 5 ∧
    (checkAt { Key := "k", Limit := 2, Duration := 0 } 7
        ((Redis.empty 0).put "k" { value := 5, expireAt := none })).1
      = Except.ok { Result := RateLimitResult.Deny, Limit := 2, Total := 5,
                    Remaining := 0, ExpiresAt := 7 } ∧
    (((Redis.empty 0).put "k" { value := 5, expireAt := none }).atTime 7).lookup "k"
      = some { value := 5, expireAt := none } ∧
    (checkAt { Key := "k", Limit := 2, Duration := 0 } 7
        ((Redis.empty 0).put "k" { value := 5, expireAt := none })).2.lookup "k"
      = none := by
  refine ⟨by rfl, by rfl, by rfl, by rfl, by rfl⟩

/-- C4 (amended): for every request whose key's counter, as read by the
batched read, is already at or over the limit, on every store client:
`Check` sends no increment (the store is left as the batched read, or the
`Expire` after it, left it); a response, when there is one, is `Deny` with
`total` equal to the count read and `remaining = 0`; and `Check` returns an
error instead exactly when `Exec` reports an error other than `redis.Nil`, or
the TTL read gave no valid TTL and the `Expire` sent for it fails. On the
Redis store, whose commands do not fail, and for a positive duration, the
check returns that `Deny`, sends no increment, and leaves the stored counter
value of that key and of every other key unchanged. -/
theorem fast_path_frame {σ : Type} (rl : RedisRateLimiter σ) (req : RateLimitRequest)
    (s : σ) (v : Int)
    (hread : (rl.client.pipeGetTTL req.Key s).1.count = Except.ok v)
    (hsat : req.Limit ≤ v) :
    ((rl.Check req s).2 = (rl.client.pipeGetTTL req.Key s).2 ∨
     (rl.Check req s).2
       = (rl.client.Expire req.Key req.Duration (rl.client.pipeGetTTL req.Key s).2).2) ∧
    (∀ resp, (rl.Check req s).1 = Except.ok resp →
      resp.Result = RateLimitResult.Deny ∧ resp.Limit = req.Limit ∧
      resp.Total = v ∧ resp.Remaining = 0) ∧
    ((∃ e, (rl.Check req s).1 = Except.error e) ↔
      ((∃ m, (rl.client.pipeGetTTL req.Key s).1.execErr = some (Error.other m)) ∨
       ((¬ ∃ ttl, (rl.client.pipeGetTTL req.Key s).1.ttl = Except.ok ttl ∧
            ttl ≠ keyWithoutTTL ∧ ttl ≠ keyNotFound) ∧
        ∃ e, (rl.client.Expire req.Key req.Duration (rl.client.pipeGetTTL req.Key s).2).1
          = some e))) ∧
    (∀ (t : Int) (w : Redis), 0 < req.Duration →
      (redisClient.pipeGetTTL req.Key (w.atTime t)).1.count = Except.ok v →
      (∃ E, (checkAt req t w).1 = Except.ok
          { Result := RateLimitResult.Deny, Limit := req.Limit, Total := v,
            Remaining := 0, ExpiresAt := E }) ∧
      (∃ cmds, (checkAt req t w).2.log = w.log ++ cmds ∧ ∀ c ∈ cmds, ∀ k, c ≠ Cmd.incr k) ∧
      (∀ k, ((checkAt req t w).2.lookup k).map Entry.value
          = ((w.atTime t).lookup k).map Entry.value)) := by
  have generic :
      ((rl.Check req s).2 = (rl.client.pipeGetTTL req.Key s).2 ∨
       (rl.Check req s).2
         = (rl.client.Expire req.Key req.Duration (rl.client.pipeGetTTL req.Key s).2).2) ∧
      (∀ resp, (rl.Check req s).1 = Except.ok resp →
        resp.Result = RateLimitResult.Deny ∧ resp.Limit = req.Limit ∧
        resp.Total = v ∧ resp.Remaining = 0) ∧
      ((∃ e, (rl.Check req s).1 = Except.error e) ↔
        ((∃ m, (rl.client.pipeGetTTL req.Key s).1.execErr = some (Error.other m)) ∨
         ((¬ ∃ ttl, (rl.client.pipeGetTTL req.Key s).1.ttl = Except.ok ttl ∧
              ttl ≠ keyWithoutTTL ∧ ttl ≠ keyNotFound) ∧
          ∃ e, (rl.client.Expire req.Key req.Duration (rl.client.pipeGetTTL req.Key s).2).1
            = some e))) := by
    unfold RedisRateLimiter.Check
    rcases hp : rl.client.pipeGetTTL req.Key s with ⟨reply, s1⟩
    rw [hp] at hread
    simp only at hread ⊢
    -- what `checkTTL` does on this reply
    have ttlStep :
        ((rl.checkTTL req reply s1).2 = s1 ∨
         (rl.checkTTL req reply s1).2 = (rl.client.Expire req.Key req.Duration s1).2) ∧
        (∀ resp, (rl.checkTTL req reply s1).1 = Except.ok resp →
          resp.Result = RateLimitResult.Deny ∧ resp.Limit = req.Limit ∧
          resp.Total = v ∧ resp.Remaining = 0) ∧
        ((∃ e, (rl.checkTTL req reply s1).1 = Except.error e) ↔
          ((¬ ∃ ttl, reply.ttl = Except.ok ttl ∧ ttl ≠ keyWithoutTTL ∧ ttl ≠ keyNotFound) ∧
           ∃ e, (rl.client.Expire req.Key req.Duration s1).1 = some e)) := by
      unfold RedisRateLimiter.checkTTL
      rcases httl : reply.ttl with e | ttl
      · rcases hx : rl.client.Expire req.Key req.Duration s1 with ⟨_ | err, s2⟩
        · simp [checkCount_saturated rl req reply v _ _ hread hsat]
        · simp
      · by_cases hvalid : ttl ≠ keyWithoutTTL ∧ ttl ≠ keyNotFound
        · simp only [if_pos hvalid, checkCount_saturated rl req reply v _ _ hread hsat]
          refine ⟨Or.inl trivial, ?_, ?_⟩
          · intro resp h
            simp only [Except.ok.injEq] at h
            subst h
            exact ⟨rfl, rfl, rfl, rfl⟩
          · constructor
            · rintro ⟨e, he⟩; simp at he
            · rintro ⟨hno, _⟩
              exact absurd ⟨ttl, rfl, hvalid.1, hvalid.2⟩ hno
        · have hno : ¬ ∃ ttl', (Except.ok ttl : Except Error Int) = Except.ok ttl' ∧
              ttl' ≠ keyWithoutTTL ∧ ttl' ≠ keyNotFound := by
            rintro ⟨ttl', h1, h2⟩
            simp only [Except.ok.injEq] at h1
            subst h1
            exact hvalid h2
          rcases hx : rl.client.Expire req.Key req.Duration s1 with ⟨_ | err, s2⟩
          · simp [if_neg hvalid, checkCount_saturated rl req reply v _ _ hread hsat]
          · simp only [if_neg hvalid]
            refine ⟨Or.inr trivial, ?_, ?_⟩
            · intro resp h; simp at h
            · constructor
              · intro _; exact ⟨hno, err, rfl⟩
              · intro _; exact ⟨err, rfl⟩
    rcases hex : reply.execErr with _ | (_ | m)
    · simpa using ttlStep
    · simpa using ttlStep
    · simp
  refine ⟨generic.1, generic.2.1, generic.2.2, ?_⟩
  intro t w hpos hreadR
  have hread' : (w.atTime t).getInt64 req.Key = Except.ok v := hreadR
  obtain ⟨hv, exp, hlk⟩ := Redis.getInt64_ok _ _ _ hread'
  cases exp with
  | some E =>
    rw [checkAt_ttl_saturated req t w v E hv hlk hsat]
    refine ⟨⟨_, rfl⟩, ⟨[Cmd.get req.Key, Cmd.ttl req.Key], by simp, ?_⟩, fun k => ?_⟩
    · intro c hc k
      simp only [List.mem_cons, List.mem_singleton, List.not_mem_nil, or_false] at hc
      rcases hc with rfl | rfl <;> simp
    · simp
  | none =>
    rw [checkAt_persistent_saturated req t w v hpos hv hlk hsat]
    refine ⟨⟨_, rfl⟩,
      ⟨[Cmd.get req.Key, Cmd.ttl req.Key, Cmd.expire req.Key req.Duration], by simp, ?_⟩,
      fun k => ?_⟩
    · intro c hc k
      simp only [List.mem_cons, List.mem_singleton, List.not_mem_nil, or_false] at hc
      rcases hc with rfl | rfl | rfl <;> simp
    · have hf := formatSec_pos _ hpos
      by_cases hk : k = req.Key
      · subst hk
        have hl : (t / 1000000 ≤ t / 1000000 + formatSec req.Duration * 1000) := by omega
        simp [Redis.lookup_put_same, Entry.live, hl, hlk]
      · simp [Redis.lookup_put_other _ _ _ _ hk]

/-- C4 (amended) instance: on the Redis store key `"k"` holds 5 without
expiry, the limit is 2 and the duration one second. -/
theorem fast_path_frame_witness :
    ((redisLimiter.client.pipeGetTTL "k"
        (((Redis.empty 0).put "k" { value := 5, expireAt := none }).atTime 7)).1.count
        = Except.ok 5 ∧
      (2 : Int) ≤ 5 ∧ (0 : Int) < 1000000000) ∧
    (∀ resp,
      (redisLimiter.Check { Key := "k", Limit := 2, Duration := 1000000000 }
        (((Redis.empty 0).put "k" { value := 5, expireAt := none }).atTime 7)).1
        = Except.ok resp →
      resp.Result = RateLimitResult.Deny ∧ resp.Limit = 2 ∧
      resp.Total = 5 ∧ resp.Remaining = 0) ∧
    ((∃ E, (checkAt { Key := "k", Limit := 2, Duration := 1000000000 } 7
          ((Redis.empty 0).put "k" { value := 5, expireAt := none })).1 = Except.ok
        { Result := RateLimitResult.Deny, Limit := 2, Total := 5, Remaining := 0,
          ExpiresAt := E }) ∧
     (∃ cmds, (checkAt { Key := "k", Limit := 2, Duration := 1000000000 } 7
          ((Redis.empty 0).put "k" { value := 5, expireAt := none })).2.log
          = ((Redis.empty 0).put "k" { value := 5, expireAt := none }).log ++ cmds ∧
        ∀ c ∈ cmds, ∀ k, c ≠ Cmd.incr k) ∧
     (∀ k, ((checkAt { Key := "k", Limit := 2, Duration := 1000000000 } 7
          ((Redis.empty 0).put "k" { value := 5, expireAt := none })).2.lookup k).map Entry.value
        = ((((Redis.empty 0).put "k" { value := 5, expireAt := none }).atTime 7).lookup k).map
            Entry.value)) :=
  ⟨⟨by rfl, by decide, by decide⟩,
   (fast_path_frame redisLimiter { Key := "k", Limit := 2, Duration := 1000000000 }
      (((Redis.empty 0).put "k" { value := 5, expireAt := none }).atTime 7) 5
      (by rfl) (by decide)).2.1,
   (fast_path_frame redisLimiter { Key := "k", Limit := 2, Duration := 1000000000 }
      (((Redis.empty 0).put "k" { value := 5, expireAt := none }).atTime 7) 5
      (by rfl) (by decide)).2.2.2 7
      ((Redis.empty 0).put "k" { value := 5, expireAt := none }) (by decide) (by rfl)⟩

/-! ## Window bootstrap -/

/-- C5 at its failing input: the first check of key `"k"` (limit 2, duration
1000) on an empty store at clock 0 reports total 1 and `expiresAt = 1000`, and
leaves the key with count 1 and no expiry at all: `Expire` ran before the
increment created the key, and the store's `TTL` now answers `-1`. -/
theorem first_check_leaves_no_expiry :
    (checkAt { Key := "k", Limit := 2, Duration := 1000 } 0 (Redis.empty 0)).1
      = Except.ok { Result := RateLimitResult.Allow, Limit := 2, Total := 1,
                    Remaining := 1, ExpiresAt := 1000 } ∧
    (checkAt { Key := "k", Limit := 2, Duration := 1000 } 0 (Redis.empty 0)).2.lookup "k"
      = some { value := 1, expireAt := none } ∧
    (checkAt { Key := "k", Limit := 2, Duration := 1000 } 0 (Redis.empty 0)).2.ttlOf "k"
      = keyWithoutTTL ∧
    (checkAt { Key := "k", Limit := 2, Duration := 1000 } 0 (Redis.empty 0)).2.log
      = [Cmd.get "k", Cmd.ttl "k", Cmd.expire "k" 1000, Cmd.incr "k"] := by
  refine ⟨by rfl, by rfl, by rfl, by rfl⟩

/-! ## Expiry stability -/

/-- C6 at its failing input: key `"k"` holds 1 and expires at 10 s (10000 ms
of the server clock); two checks of limit 5 and window 60 s run at 0.2 s and
0.7 s, both before the expiry. `TTL` answers in whole seconds, 10 and then 9,
so the responses report `expiresAt` 10.2 s and 9.7 s: they differ from each
other and from the expiry, which no command has changed (no `Expire` was
sent, and the key still expires at 10 s). -/
theorem expiresAt_drifts :
    (((Redis.empty 0).put "k" { value := 1, expireAt := some 10000 }).atTime 200000000).ttlOf "k"
      = 10 * 1000000000 ∧
    (((Redis.empty 0).put "k" { value := 1, expireAt := some 10000 }).atTime 700000000).ttlOf "k"
      = 9 * 1000000000 ∧
    (runChecks { Key := "k", Limit := 5, Duration := 60000000000 } [200000000, 700000000]
        ((Redis.empty 0).put "k" { value := 1, expireAt := some 10000 })).1
      = [Except.ok { Result := RateLimitResult.Allow, Limit := 5, Total := 2,
                     Remaining := 3, ExpiresAt := 10200000000 },
         Except.ok { Result := RateLimitResult.Allow, Limit := 5, Total := 3,
                     Remaining := 2, ExpiresAt := 9700000000 }] ∧
    (runChecks { Key := "k", Limit := 5, Duration := 60000000000 } [200000000, 700000000]
        ((Redis.empty 0).put "k" { value := 1, expireAt := some 10000 })).2.log
      = [Cmd.get "k", Cmd.ttl "k", Cmd.incr "k", Cmd.get "k", Cmd.ttl "k", Cmd.incr "k"] ∧
    (runChecks { Key := "k", Limit := 5, Duration := 60000000000 } [200000000, 700000000]
        ((Redis.empty 0).put "k" { value := 1, expireAt := some 10000 })).2.data "k"
      = some { value := 3, expireAt := some 10000 } := by
  refine ⟨by rfl, by rfl, by rfl, by rfl, by rfl⟩

/-! ## Request classification -/

/-- C7: `HTTPRateLimiter.Check` hands the strategy exactly one
`RateLimitRequest`, whose duration is the configured window and whose key and
limit are the `API_KEY` header value with the per-token maximum when that value
is non-empty (whatever the client address resolves to), and the resolved client
address with the per-address maximum otherwise; the strategy's answer is
returned as it is. The request handed over depends on the header, the resolved
address and the configuration only. -/
theorem HTTPRateLimiter_Check_classifies (rl : HTTPRateLimiter) (GetClientIP : Request → String)
    (outcome : RateLimitRequest → Except Error RateLimitResponse)
    (r : Request) (seen : List RateLimitRequest) :
    rl.Check GetClientIP (recordingStrategy outcome) r seen =
      (outcome
        (if r.Header.Get "API_KEY" ≠ "" then
          { Key := r.Header.Get "API_KEY", Limit := rl.maxRequestsPerToken,
            Duration := rl.timeWindow }
         else
          { Key := GetClientIP r, Limit := rl.maxRequestsPerIP, Duration := rl.timeWindow }),
       seen ++
        [if r.Header.Get "API_KEY" ≠ "" then
          { Key := r.Header.Get "API_KEY", Limit := rl.maxRequestsPerToken,
            Duration := rl.timeWindow }
         else
          { Key := GetClientIP r, Limit := rl.maxRequestsPerIP, Duration := rl.timeWindow }]) := by
  unfold HTTPRateLimiter.Check recordingStrategy DefaultHeaderAPIKey
  by_cases h : r.Header.Get "API_KEY" ≠ ""
  · simp only [if_pos h]
    generalize outcome _ = o
    cases o <;> rfl
  · simp only [if_neg h]
    generalize outcome _ = o
    cases o <;> rfl

/-- C7 instance: header `API_KEY: abc123` with per-token limit 100; the
strategy is given key `"abc123"` and limit 100 whatever the address. -/
theorem HTTPRateLimiter_Check_classifies_witness :
    ((NewHTTPRateLimiter 10 100 1000).Check (fun r => r.RemoteAddr)
        (recordingStrategy (fun _ => Except.error (Error.other "down")))
        { Header := { fields := [("API_KEY", ["abc123"])] }, RemoteAddr := "10.0.0.7:4242" }
        []).2
      = [{ Key := "abc123", Limit := 100, Duration := 1000000000 }] := by
  rw [HTTPRateLimiter_Check_classifies]
  rfl

/-! ## Header fields -/

/-- Looking a name up is not affected by dropping the fields of another name. -/
theorem lookup_filter_ne (k k' : String) (h : k' ≠ k) (l : List (String × List String)) :
    (l.filter (fun p => p.1 != k)).lookup k' = l.lookup k' := by
  induction l with
  | nil => rfl
  | cons p rest ih =>
    obtain ⟨a, b⟩ := p
    by_cases ha : a = k
    · subst ha
      have h1 : (k' == a) = false := by simpa using h
      simp [List.filter_cons, List.lookup_cons, h1, ih]
    · by_cases hk : k' = a
      · subst hk
        simp [List.filter_cons, List.lookup_cons, ha]
      · have h1 : (k' == a) = false := by simpa using hk
        simp [List.filter_cons, List.lookup_cons, ha, h1, ih]

/-- `Get` after `Set` of the same name reads the value set. -/
theorem Header.Get_Set_same (h : Header) (k v : String) : (h.Set k v).Get k = v := by
  simp [Header.Get, Header.Set, List.lookup_cons]

/-- `Get` after `Set` of another name reads what was there before. -/
theorem Header.Get_Set_other (h : Header) (k k' v : String) (hne : k' ≠ k) :
    (h.Set k v).Get k' = h.Get k' := by
  have h1 : (k' == k) = false := by simpa using hne
  simp [Header.Get, Header.Set, List.lookup_cons, h1, lookup_filter_ne k k' hne]

/-! ## Admission middleware -/

/-- C9: the handler returned by `Handle` calls the limiter exactly once; when
the limiter fails it responds with status 500 and does not call the downstream
handler; when the limiter answers `Deny` it responds with status 429 (rate
limit exceeded) and does not call the downstream handler; when the limiter
answers `Allow` it calls the downstream handler exactly once, and the response
is the one that handler writes. -/
theorem Handle_checks_once (outcome : Request → Except Error RateLimitResponse)
    (handler : ResponseWriter → Request → ResponseWriter)
    (w : ResponseWriter) (r : Request) (c : Calls) :
    (RateLimiterMiddleware.Handle (countingLimiter outcome) (countingNext handler) w r c).2.limiter
      = c.limiter + 1 ∧
    (match outcome r with
     | Except.error _ =>
       (RateLimiterMiddleware.Handle (countingLimiter outcome) (countingNext handler)
          w r c).1.status = some 500 ∧
       (RateLimiterMiddleware.Handle (countingLimiter outcome) (countingNext handler)
          w r c).2.next = c.next
     | Except.ok result =>
       if result.Result = RateLimitResult.Deny then
         (RateLimiterMiddleware.Handle (countingLimiter outcome) (countingNext handler)
            w r c).1.status = some 429 ∧
         (RateLimiterMiddleware.Handle (countingLimiter outcome) (countingNext handler)
            w r c).1.body = "rate limit exceeded" ∧
         (RateLimiterMiddleware.Handle (countingLimiter outcome) (countingNext handler)
            w r c).2.next = c.next
       else
         (RateLimiterMiddleware.Handle (countingLimiter outcome) (countingNext handler)
            w r c).2.next = c.next + 1 ∧
         ∃ w3, (RateLimiterMiddleware.Handle (countingLimiter outcome) (countingNext handler)
            w r c).1 = handler w3 r) := by
  unfold RateLimiterMiddleware.Handle countingLimiter countingNext
  cases ho : outcome r with
  | error err =>
    simp [RespondWithError, StatusInternalServerError]
  | ok result =>
    by_cases hd : result.Result = RateLimitResult.Deny
    · simp [hd, RespondWithError, StatusTooManyRequests, ErrRateLimitExceeded, Error.text]
    · simp only [hd, if_false, true_and]
      exact ⟨_, rfl⟩

/-- C10: when the limiter check succeeds, for `Allow` and for `Deny` alike, the
writer that reaches the 429 rejection or the downstream handler already carries
`X-RateLimit-Limit`, `X-RateLimit-Remaining` and `X-RateLimit-Reset` with the
decimal numerals of the result's limit, of its remaining count and of its
expiry in whole unix seconds (and nothing else of the writer was touched); the
rejected response keeps them. When the check fails the header is left as it
was. -/
theorem Handle_sets_quota_headers (outcome : Request → Except Error RateLimitResponse)
    (handler : ResponseWriter → Request → ResponseWriter)
    (w : ResponseWriter) (r : Request) (c : Calls) :
    match outcome r with
    | Except.error _ =>
      (RateLimiterMiddleware.Handle (countingLimiter outcome) (countingNext handler)
        w r c).1.Header = w.Header
    | Except.ok result =>
      ∃ w3 : ResponseWriter,
        w3.Header.Get "X-RateLimit-Limit" = toString result.Limit ∧
        w3.Header.Get "X-RateLimit-Remaining" = toString result.Remaining ∧
        w3.Header.Get "X-RateLimit-Reset"
          = toString (Int.fdiv result.ExpiresAt 1000000000) ∧
        w3.status = w.status ∧ w3.body = w.body ∧
        if result.Result = RateLimitResult.Deny then
          (RateLimiterMiddleware.Handle (countingLimiter outcome) (countingNext handler)
            w r c).1 = RespondWithError w3 429 ErrRateLimitExceeded ∧
          (RateLimiterMiddleware.Handle (countingLimiter outcome) (countingNext handler)
            w r c).1.Header = w3.Header
        else
          (RateLimiterMiddleware.Handle (countingLimiter outcome) (countingNext handler)
            w r c).1 = handler w3 r := by
  unfold RateLimiterMiddleware.Handle countingLimiter countingNext
  cases ho : outcome r with
  | error err =>
    simp [RespondWithError]
  | ok result =>
    have n1 : headerRateLimitLimit ≠ headerRateLimitRemaining := by decide
    have n2 : headerRateLimitLimit ≠ headerRateLimitReset := by decide
    have n3 : headerRateLimitRemaining ≠ headerRateLimitReset := by decide
    refine ⟨ResponseWriter.mk
      (((w.Header.Set headerRateLimitLimit (FormatInt result.Limit)).Set
        headerRateLimitRemaining (FormatInt result.Remaining)).Set headerRateLimitReset
        (FormatInt (Unix result.ExpiresAt))) w.status w.body, ?_, ?_, ?_, rfl, rfl, ?_⟩
    · show (((w.Header.Set headerRateLimitLimit _).Set headerRateLimitRemaining _).Set
        headerRateLimitReset _).Get headerRateLimitLimit = _
      rw [Header.Get_Set_other _ _ _ _ n2, Header.Get_Set_other _ _ _ _ n1, Header.Get_Set_same]
      rfl
    · show (((w.Header.Set headerRateLimitLimit _).Set headerRateLimitRemaining _).Set
        headerRateLimitReset _).Get headerRateLimitRemaining = _
      rw [Header.Get_Set_other _ _ _ _ n3, Header.Get_Set_same]
      rfl
    · show (((w.Header.Set headerRateLimitLimit _).Set headerRateLimitRemaining _).Set
        headerRateLimitReset _).Get headerRateLimitReset = _
      rw [Header.Get_Set_same]
      rfl
    · by_cases hd : result.Result = RateLimitResult.Deny
      · simp [hd, RespondWithError, StatusTooManyRequests]
      · simp [hd]

/-- C10 instance: the limiter allows with limit 100, remaining 99 and an
expiry of 1700000000.123456789 s; the response written through a downstream
handler that adds nothing carries the header values `100`, `99` and
`1700000000`. -/
theorem Handle_sets_quota_headers_witness :
    (RateLimiterMiddleware.Handle
        (countingLimiter (fun _ => Except.ok
          { Result := RateLimitResult.Allow, Limit := 100, Total := 1, Remaining := 99,
            ExpiresAt := 1700000000123456789 }))
        (countingNext (fun w _ => w))
        { Header := { fields := [] }, status := none, body := "" }
        { Header := { fields := [] }, RemoteAddr := "10.0.0.7:4242" }
        { limiter := 0, next := 0 }).1.Header.Get "X-RateLimit-Limit" = "100" ∧
    (RateLimiterMiddleware.Handle
        (countingLimiter (fun _ => Except.ok
          { Result := RateLimitResult.Allow, Limit := 100, Total := 1, Remaining := 99,
            ExpiresAt := 1700000000123456789 }))
        (countingNext (fun w _ => w))
        { Header := { fields := [] }, status := none, body := "" }
        { Header := { fields := [] }, RemoteAddr := "10.0.0.7:4242" }
        { limiter := 0, next := 0 }).1.Header.Get "X-RateLimit-Remaining" = "99" ∧
    (RateLimiterMiddleware.Handle
        (countingLimiter (fun _ => Except.ok
          { Result := RateLimitResult.Allow, Limit := 100, Total := 1, Remaining := 99,
            ExpiresAt := 1700000000123456789 }))
        (countingNext (fun w _ => w))
        { Header := { fields := [] }, status := none, body := "" }
        { Header := { fields := [] }, RemoteAddr := "10.0.0.7:4242" }
        { limiter := 0, next := 0 }).1.Header.Get "X-RateLimit-Reset" = "1700000000" := by
  obtain ⟨w3, h1, h2, h3, _, _, hfin⟩ := Handle_sets_quota_headers
    (fun _ => Except.ok
      { Result := RateLimitResult.Allow, Limit := 100, Total := 1, Remaining := 99,
        ExpiresAt := 1700000000123456789 })
    (fun w _ => w)
    { Header := { fields := [] }, status := none, body := "" }
    { Header := { fields := [] }, RemoteAddr := "10.0.0.7:4242" }
    { limiter := 0, next := 0 }
  rw [if_neg (by decide)] at hfin
  rw [hfin]
  refine ⟨h1.trans ?_, h2.trans ?_, h3.trans ?_⟩
  · decide
  · decide
  · decide

end RateLimiter
